import Mathlib

/-!
Verification development for the NanoTV MicroOS kernel
(`src/Components/MicroOS/src/MicroOS.c`, header `include/MicroOS.h`).

The kernel is a cooperative, tick-driven scheduler with three subsystems:
a task table (fixed array of `MICROOS_TASK_SIZE` slots), a delay-timer
pool, and an event pool (both intrusive free/active linked lists over a
fixed node array). We embed each subsystem shallowly:

* the intrusive linked lists become Lean `List`s of node records, in head
  order; the `next` pointers become the list structure itself;
* C `uint8_t` / `uint16_t` / `uint32_t` counters become `Nat` with the
  exact modular wraparound made explicit where the C code can overflow
  (`% 256`, `% 65536`, and 32-bit wraparound subtraction `sub32`);
* function pointers become `Nat` identifiers, with `0` playing the role
  of `NULL` (the code only stores, compares against `NULL`, and calls
  them); an invocation is recorded in an output list instead of called;
* each C function becomes a state-passing Lean function returning the new
  state together with its `MicroOS_Status_t` result.
-/

namespace MicroOS

/-- Status codes from `MicroOS_Status_t` in `include/MicroOS.h`. -/
inductive MicroOS_Status_t where
  | MICROOS_OK
  | MICROOS_ERROR
  | MICROOS_TIMEOUT
  | MICROOS_INVALID_PARAM
  | MICROOS_NOT_INITIALIZED
  | MICROOS_BUSY
deriving DecidableEq, Repr

export MicroOS_Status_t (MICROOS_OK MICROOS_ERROR MICROOS_TIMEOUT
  MICROOS_INVALID_PARAM MICROOS_NOT_INITIALIZED MICROOS_BUSY)

/-- Constant `MICROOS_TASK_SIZE` (10): maximum number of task slots. -/
def MICROOS_TASK_SIZE : Nat := 10

/-- Constant `OS_DELAY_POOLSIZE` (10): capacity of the delay-record pool. -/
def OS_DELAY_POOLSIZE : Nat := 10

/-- Constant `OS_EVENT_POOLSIZE` (10): capacity of the event-record pool. -/
def OS_EVENT_POOLSIZE : Nat := 10

/-- Modulus of a C `uint32_t`. -/
def U32 : Nat := 2 ^ 32

/-- Wraparound-safe unsigned 32-bit subtraction `a - b` as computed by C
on `uint32_t` operands `a, b < 2^32`. -/
def sub32 (a b : Nat) : Nat := (a + U32 - b) % U32

/-- Delay record `MicroOS_OSdelay_Sub_t` (without the intrusive `next`
pointer, which the enclosing `List` represents). -/
structure MicroOS_OSdelay_Sub_t where
  id : Nat
  ms : Nat
  IsTimeout : Bool
deriving DecidableEq, Repr

/-- A delay node with all bytes zero, as produced by `memset(..., 0, ...)`
and by the zero-initialised static pool. -/
def zeroDelayNode : MicroOS_OSdelay_Sub_t :=
  { id := 0, ms := 0, IsTimeout := false }

/-- Delay pool state `MicroOS_OSdelay_t`: the free list and the active
list, each in head order. (The fixed backing array `delay_pool` is
represented by the multiset of nodes on the two lists; `OSdelayNum` is
declared in the header but never used by the code.) -/
structure MicroOS_OSdelay_t where
  free_delay : List MicroOS_OSdelay_Sub_t
  active_delay : List MicroOS_OSdelay_Sub_t
deriving DecidableEq, Repr

/-- Embedding of `MicroOS_OSdelay_Init`: all `OS_DELAY_POOLSIZE` (zero-initialised)
nodes are chained into the free list; the active list is empty. -/
def MicroOS_OSdelay_Init : MicroOS_OSdelay_t :=
  { free_delay := List.replicate OS_DELAY_POOLSIZE zeroDelayNode
    active_delay := [] }

/-- The scan-and-refresh loop at the top of `MicroOS_OSdelay`: walk the
active list; on the first node with matching `id`, set `ms := Ticks` and
clear `IsTimeout`, returning the updated list; `none` if no node matches. -/
def osdelayRefresh (l : List MicroOS_OSdelay_Sub_t) (id Ticks : Nat) :
    Option (List MicroOS_OSdelay_Sub_t) :=
  match l with
  | [] => none
  | p :: rest =>
    if p.id = id then
      some ({ p with ms := Ticks, IsTimeout := false } :: rest)
    else
      (osdelayRefresh rest id Ticks).map (p :: ·)

/-- Embedding of `MicroOS_OSdelay(id, Ticks)`: refresh an existing active record for
`id` in place, else pop a node from the free list (fail with
`MICROOS_BUSY` if it is empty), initialise it and push it onto the head of
the active list. -/
def MicroOS_OSdelay (s : MicroOS_OSdelay_t) (id Ticks : Nat) :
    MicroOS_OSdelay_t × MicroOS_Status_t :=
  match osdelayRefresh s.active_delay id Ticks with
  | some act => ({ s with active_delay := act }, MICROOS_OK)
  | none =>
    match s.free_delay with
    | [] => (s, MICROOS_BUSY)
    | node :: restFree =>
      ({ free_delay := restFree
         active_delay :=
           { node with id := id, ms := Ticks, IsTimeout := false }
             :: s.active_delay }, MICROOS_OK)

/-- Embedding of `MicroOS_OSdelayDone(id)`: linear scan of the active list; the expired
flag of the first matching record, or `false` when `id` is absent. -/
def MicroOS_OSdelayDone (s : MicroOS_OSdelay_t) (id : Nat) : Bool :=
  match s.active_delay.find? (fun p => p.id = id) with
  | some p => p.IsTimeout
  | none => false

/-- Per-node body of the tick loop in `MicroOS_OSdelay_Tick`: if `ms > 0`
decrement it, and set the sticky expired flag when it hits zero. -/
def osdelayTickNode (p : MicroOS_OSdelay_Sub_t) : MicroOS_OSdelay_Sub_t :=
  if p.ms > 0 then
    let ms1 := p.ms - 1
    { p with ms := ms1, IsTimeout := if ms1 = 0 then true else p.IsTimeout }
  else p

/-- Embedding of `MicroOS_OSdelay_Tick`: apply the per-node countdown to every record
of the active list (nodes are never unlinked here). -/
def MicroOS_OSdelay_Tick (s : MicroOS_OSdelay_t) : MicroOS_OSdelay_t :=
  { s with active_delay := s.active_delay.map osdelayTickNode }

/-- The unlink loop of `MicroOS_OSdelay_Remove`: drop the first node of
`l` whose `id` matches, returning the remaining list; `none` if absent. -/
def osdelayUnlink (l : List MicroOS_OSdelay_Sub_t) (id : Nat) :
    Option (List MicroOS_OSdelay_Sub_t) :=
  match l with
  | [] => none
  | p :: rest =>
    if p.id = id then some rest
    else (osdelayUnlink rest id).map (p :: ·)

/-- Embedding of `MicroOS_OSdelay_Remove(id)`: unlink the first active record matching
`id`, zero it (`memset`) and push it onto the head of the free list; a
silent no-op when `id` has no active record. -/
def MicroOS_OSdelay_Remove (s : MicroOS_OSdelay_t) (id : Nat) :
    MicroOS_OSdelay_t :=
  match osdelayUnlink s.active_delay id with
  | some act =>
    { free_delay := zeroDelayNode :: s.free_delay, active_delay := act }
  | none => s

/-- Event record `MicroOS_Event_Sub_t` (without the intrusive `next`
pointer). `EventFunction` and `Userdata` are pointer-sized values
modelled as `Nat`, `0` standing for `NULL`. -/
structure MicroOS_Event_Sub_t where
  id : Nat
  IsRunning : Bool
  IsUsed : Bool
  TriggerCount : Nat
  EventFunction : Nat
  Userdata : Nat
deriving DecidableEq, Repr

/-- An event node with all bytes zero, as left by `memset` and by the
zero-initialised static pool. -/
def zeroEventNode : MicroOS_Event_Sub_t :=
  { id := 0, IsRunning := false, IsUsed := false, TriggerCount := 0
    EventFunction := 0, Userdata := 0 }

/-- Event pool state `MicroOS_Event_t`: free and active lists in head
order, plus the diagnostic `CurrentEventId` and the live counter
`EventNum` (a `uint8_t`). -/
structure MicroOS_Event_t where
  free_event : List MicroOS_Event_Sub_t
  active_event : List MicroOS_Event_Sub_t
  CurrentEventId : Nat
  EventNum : Nat
deriving DecidableEq, Repr

/-- Embedding of `MicroOS_OSEvent_Init`: chain all pool nodes into the free list,
empty active list. (`CurrentEventId` and `EventNum` stay at their
zero-initialised values.) -/
def MicroOS_OSEvent_Init : MicroOS_Event_t :=
  { free_event := List.replicate OS_EVENT_POOLSIZE zeroEventNode
    active_event := []
    CurrentEventId := 0
    EventNum := 0 }

/-- The scan loop at the top of `MicroOS_RegisterEvent`: on the first
active node with matching `id`, overwrite handler, running flag (set),
user data, pending count (cleared) and used flag (set) in place. -/
def eventUpdateFirst (l : List MicroOS_Event_Sub_t) (id f d : Nat) :
    Option (List MicroOS_Event_Sub_t) :=
  match l with
  | [] => none
  | p :: rest =>
    if p.id = id then
      some ({ p with EventFunction := f, IsRunning := true, Userdata := d
                     TriggerCount := 0, IsUsed := true } :: rest)
    else
      (eventUpdateFirst rest id f d).map (p :: ·)

/-- Embedding of `MicroOS_RegisterEvent(id, EventFunction, Userdata)`: `NULL` handler
is rejected (`MICROOS_ERROR`); an existing active record for `id` is
overwritten in place; otherwise a node is popped from the free list
(`MICROOS_BUSY` if empty), `EventNum` is incremented (`uint8_t`), the node
is initialised and pushed onto the head of the active list. -/
def MicroOS_RegisterEvent (s : MicroOS_Event_t) (id f d : Nat) :
    MicroOS_Event_t × MicroOS_Status_t :=
  if f = 0 then (s, MICROOS_ERROR)
  else
    match eventUpdateFirst s.active_event id f d with
    | some act => ({ s with active_event := act }, MICROOS_OK)
    | none =>
      match s.free_event with
      | [] => (s, MICROOS_BUSY)
      | node :: restFree =>
        ({ s with
           EventNum := (s.EventNum + 1) % 256
           free_event := restFree
           active_event :=
             { node with id := id, EventFunction := f, Userdata := d
                         IsRunning := true, TriggerCount := 0
                         IsUsed := true } :: s.active_event }, MICROOS_OK)

/-- The scan loop of `MicroOS_TriggerEvent`: on the first active node with
matching `id` that is used and running, increment its pending-trigger
count (a `uint16_t`, hence `% 65536`); `none` when no such node exists. -/
def eventTriggerFirst (l : List MicroOS_Event_Sub_t) (id : Nat) :
    Option (List MicroOS_Event_Sub_t) :=
  match l with
  | [] => none
  | p :: rest =>
    if p.id = id ∧ p.IsUsed = true ∧ p.IsRunning = true then
      some ({ p with TriggerCount := (p.TriggerCount + 1) % 65536 } :: rest)
    else
      (eventTriggerFirst rest id).map (p :: ·)

/-- Embedding of `MicroOS_TriggerEvent(id)`: `MICROOS_OK` and one more pending trigger
when a used, running active record for `id` exists, else `MICROOS_ERROR`. -/
def MicroOS_TriggerEvent (s : MicroOS_Event_t) (id : Nat) :
    MicroOS_Event_t × MicroOS_Status_t :=
  match eventTriggerFirst s.active_event id with
  | some act => ({ s with active_event := act }, MICROOS_OK)
  | none => (s, MICROOS_ERROR)

/-- Dispatch eligibility test from `MicroOS_DispatchAllEvents`:
`p->IsUsed && p->IsRunning && p->TriggerCount > 0`. -/
def eventEligible (p : MicroOS_Event_Sub_t) : Bool :=
  p.IsUsed && p.IsRunning && decide (p.TriggerCount > 0)

/-- The traversal of `MicroOS_DispatchAllEvents` over the active list:
each eligible node has its handler invoked (recorded as its `id` in the
returned invocation list, in traversal order) and its pending count
decremented by one; other nodes are left untouched. -/
def dispatchTraverse (l : List MicroOS_Event_Sub_t) :
    List MicroOS_Event_Sub_t × List Nat :=
  match l with
  | [] => ([], [])
  | p :: rest =>
    let r := dispatchTraverse rest
    if eventEligible p then
      ({ p with TriggerCount := p.TriggerCount - 1 } :: r.1, p.id :: r.2)
    else
      (p :: r.1, r.2)

/-- Embedding of `MicroOS_DispatchAllEvents`: one dispatch pass over the active list;
`CurrentEventId` ends at the id of the last dispatched event (it is
written before each handler invocation). The second component is the
list of handler invocations (by event id) the pass performed. -/
def MicroOS_DispatchAllEvents (s : MicroOS_Event_t) :
    MicroOS_Event_t × List Nat :=
  let r := dispatchTraverse s.active_event
  ({ s with active_event := r.1
            CurrentEventId := r.2.getLastD s.CurrentEventId }, r.2)

/-- State after `k` dispatch passes starting from `s` (handlers do not
re-trigger: each pass is `MicroOS_DispatchAllEvents` alone). -/
def dispatchNState (s : MicroOS_Event_t) : Nat → MicroOS_Event_t
  | 0 => s
  | k + 1 => (MicroOS_DispatchAllEvents (dispatchNState s k)).1

/-- The handler invocations performed by pass `k` (zero-based) of
consecutive dispatch passes starting from `s`. -/
def dispatchPassInv (s : MicroOS_Event_t) (k : Nat) : List Nat :=
  (MicroOS_DispatchAllEvents (dispatchNState s k)).2

/-- Task slot `MicroOS_Task_Sub_t`. `TaskFunction` is a function pointer
modelled as a `Nat` identifier (`0` = `NULL`), `Userdata` likewise. -/
structure MicroOS_Task_Sub_t where
  IsUsed : Bool
  IsRunning : Bool
  IsSleeping : Bool
  SleepTicks : Nat
  Period : Nat
  LastRunTime : Nat
  TaskFunction : Nat
  Userdata : Nat
deriving DecidableEq, Repr

/-- A task slot with all bytes zero, as left by
`memset(&Tasks[id], 0, sizeof(MicroOS_Task_Sub_t))`. -/
def zeroTaskSlot : MicroOS_Task_Sub_t :=
  { IsUsed := false, IsRunning := false, IsSleeping := false
    SleepTicks := 0, Period := 0, LastRunTime := 0
    TaskFunction := 0, Userdata := 0 }

/-- Kernel task state `MicroOS_Task_t`: the fixed slot array (a list of
length `MICROOS_TASK_SIZE`), the tick counter (`uint32_t`), `MaxTasks`,
the diagnostic `CurrentTaskId` and the live-task counter `TaskNum`
(a `uint8_t`). -/
structure MicroOS_Task_t where
  Tasks : List MicroOS_Task_Sub_t
  TickCount : Nat
  MaxTasks : Nat
  CurrentTaskId : Nat
  TaskNum : Nat
deriving DecidableEq, Repr

/-- The task-table part of `MicroOS_Init` (the call also reinitialises
the delay and event pools, modelled separately by `MicroOS_OSdelay_Init`
and `MicroOS_OSEvent_Init`). The static instance is zero-initialised, so
every slot starts as `zeroTaskSlot`. -/
def MicroOS_Init : MicroOS_Task_t :=
  { Tasks := List.replicate MICROOS_TASK_SIZE zeroTaskSlot
    TickCount := 0
    MaxTasks := MICROOS_TASK_SIZE
    CurrentTaskId := 0
    TaskNum := 0 }

/-- Embedding of `MicroOS_AddTask(id, TaskFunction, Userdata, Period)`: checks in code
order — id range (`MICROOS_CHECK_ID`), `NULL` callback
(`MICROOS_CHECK_PTR`), then `TaskNum > MICROOS_TASK_SIZE`; on success
increments `TaskNum` (`uint8_t`) unconditionally and overwrites the slot
(note: `SleepTicks` is not written by the C code). -/
def MicroOS_AddTask (s : MicroOS_Task_t) (id TaskFunction Userdata Period : Nat) :
    MicroOS_Task_t × MicroOS_Status_t :=
  if id ≥ MICROOS_TASK_SIZE then (s, MICROOS_INVALID_PARAM)
  else if TaskFunction = 0 then (s, MICROOS_ERROR)
  else if s.TaskNum > MICROOS_TASK_SIZE then (s, MICROOS_ERROR)
  else
    let old := s.Tasks.getD id zeroTaskSlot
    ({ s with
       TaskNum := (s.TaskNum + 1) % 256
       Tasks := s.Tasks.set id
         { old with TaskFunction := TaskFunction, Userdata := Userdata
                    Period := Period, LastRunTime := 0
                    IsRunning := true, IsUsed := true
                    IsSleeping := false } }, MICROOS_OK)

/-- Embedding of `MicroOS_DeleteTask(id)`: after the id-range check, decrement
`TaskNum` (a `uint8_t`, so `-1` wraps mod 256) exactly when the slot's
running flag is set, then `memset` the slot to zero. -/
def MicroOS_DeleteTask (s : MicroOS_Task_t) (id : Nat) :
    MicroOS_Task_t × MicroOS_Status_t :=
  if id ≥ MICROOS_TASK_SIZE then (s, MICROOS_INVALID_PARAM)
  else
    let s1 :=
      if (s.Tasks.getD id zeroTaskSlot).IsRunning = true then
        { s with TaskNum := (s.TaskNum + 255) % 256 }
      else s
    ({ s1 with Tasks := s1.Tasks.set id zeroTaskSlot }, MICROOS_OK)

/-- Embedding of `MicroOS_SleepTask(id, Ticks)`: id-range check, `Ticks == 0` is
`MICROOS_INVALID_PARAM`, unused slot is `MICROOS_NOT_INITIALIZED`; on
success mark the slot sleeping, store the duration and record the sleep
start tick in `LastRunTime`. -/
def MicroOS_SleepTask (s : MicroOS_Task_t) (id Ticks : Nat) :
    MicroOS_Task_t × MicroOS_Status_t :=
  if id ≥ MICROOS_TASK_SIZE then (s, MICROOS_INVALID_PARAM)
  else if Ticks = 0 then (s, MICROOS_INVALID_PARAM)
  else if (s.Tasks.getD id zeroTaskSlot).IsUsed = false then
    (s, MICROOS_NOT_INITIALIZED)
  else
    let old := s.Tasks.getD id zeroTaskSlot
    let slot := { old with IsSleeping := true, SleepTicks := Ticks
                           LastRunTime := s.TickCount }
    ({ s with Tasks := s.Tasks.set id slot }, MICROOS_OK)

/-- One iteration of the task loop in `MicroOS_StartScheduler`, for one
slot, given `currentTime`, the value of `TickCount` read at the top of the
iteration (the interrupt may advance `TickCount` at any moment, so each
iteration reads its own value). Returns the updated slot and whether the
callback was invoked. On invocation, `LastRunTime` is assigned the local
`currentTime` captured before the callback ran — the C code cannot
observe any tick advance that happens during the callback. -/
def schedStep (currentTime : Nat) (t : MicroOS_Task_Sub_t) :
    MicroOS_Task_Sub_t × Bool :=
  if t.IsUsed = false then (t, false)
  else if t.IsRunning = false then (t, false)
  else
    let t1 :=
      if t.IsSleeping = true ∧ sub32 currentTime t.LastRunTime ≥ t.SleepTicks
      then { t with IsSleeping := false, SleepTicks := 0 }
      else t
    if t1.IsSleeping = true then (t1, false)
    else if sub32 currentTime t1.LastRunTime ≥ t1.Period then
      ({ t1 with LastRunTime := currentTime }, true)
    else (t1, false)

/-- The task half of one scheduler pass: slots are visited in ascending
id order; `times` supplies, per iteration, the `TickCount` value that
iteration reads (a constant list models no interrupt during the pass).
Returns the updated slots and, per slot, whether its callback ran. -/
def schedulerPass (times : List Nat) (tasks : List MicroOS_Task_Sub_t) :
    List MicroOS_Task_Sub_t × List Bool :=
  match tasks with
  | [] => ([], [])
  | t :: rest =>
    let r := schedStep (times.headD 0) t
    let rr := schedulerPass times.tail rest
    (r.1 :: rr.1, r.2 :: rr.2)

/-- Embedding of `MicroOS_TickHandler` (together with the inlined
`MicroOS_OSdelay_Tick` call): increments the 32-bit tick counter and runs
the delay-pool countdown. -/
def MicroOS_TickHandler (s : MicroOS_Task_t) (d : MicroOS_OSdelay_t) :
    (MicroOS_Task_t × MicroOS_OSdelay_t) × MicroOS_Status_t :=
  (({ s with TickCount := (s.TickCount + 1) % U32 },
    MicroOS_OSdelay_Tick d), MICROOS_OK)

/-- Embedding of `MicroOS_SuspendTask(id)`: id-range check, unused slot is
`MICROOS_NOT_INITIALIZED`, else clear the slot's running flag. -/
def MicroOS_SuspendTask (s : MicroOS_Task_t) (id : Nat) :
    MicroOS_Task_t × MicroOS_Status_t :=
  if id ≥ MICROOS_TASK_SIZE then (s, MICROOS_INVALID_PARAM)
  else if (s.Tasks.getD id zeroTaskSlot).IsUsed = false then
    (s, MICROOS_NOT_INITIALIZED)
  else
    let old := s.Tasks.getD id zeroTaskSlot
    ({ s with Tasks := s.Tasks.set id { old with IsRunning := false } },
      MICROOS_OK)

/-- Effect of one dispatch pass on a single active node: an eligible node
loses one pending trigger, any other node is untouched. (This is the
per-node summary of `dispatchTraverse`; see `dispatchTraverse_fst`.) -/
def dispatchNode (p : MicroOS_Event_Sub_t) : MicroOS_Event_Sub_t :=
  if eventEligible p then { p with TriggerCount := p.TriggerCount - 1 }
  else p

/-- Delay pool after `MicroOS_OSdelay(5, 100)` on a freshly initialised
pool (the concrete scenario of the spec's delay-pool example). -/
def delayAfterAdd5 : MicroOS_OSdelay_t :=
  (MicroOS_OSdelay MicroOS_OSdelay_Init 5 100).1

/-- Delay pool of the concrete scenario after 100 ticks and
`MicroOS_OSdelay_Remove(5)`. -/
def delayAfterRemove5 : MicroOS_OSdelay_t :=
  MicroOS_OSdelay_Remove (MicroOS_OSdelay_Tick^[100] delayAfterAdd5) 5

/-- Delay pool after `k` adds with the distinct ids `0, …, k-1`
(each for 10 ticks); at `k = OS_DELAY_POOLSIZE` the free list is empty. -/
def delayFillIter : Nat → MicroOS_OSdelay_t
  | 0 => MicroOS_OSdelay_Init
  | k + 1 => (MicroOS_OSdelay (delayFillIter k) k 10).1

/-- Event pool after `k` registrations with the distinct ids `0, …, k-1`
(handler identifier 1); at `k = OS_EVENT_POOLSIZE` the free list is empty. -/
def eventFillIter : Nat → MicroOS_Event_t
  | 0 => MicroOS_OSEvent_Init
  | k + 1 => (MicroOS_RegisterEvent (eventFillIter k) k 1 0).1

/-- Event pool after `Register(id=2, h, data)` on a fresh pool, with
handler identifier 7 and user-data identifier 3. -/
def eventReg2 : MicroOS_Event_t :=
  (MicroOS_RegisterEvent MicroOS_OSEvent_Init 2 7 3).1

/-- Event pool after `Trigger(2)` three times consecutively on
`eventReg2`, with no dispatch pass in between. -/
def eventTrig3 : MicroOS_Event_t :=
  (MicroOS_TriggerEvent
    ((MicroOS_TriggerEvent ((MicroOS_TriggerEvent eventReg2 2).1) 2).1)
    2).1

/-- Task table after `k` repeated `MicroOS_AddTask(0, …)` calls on a
fresh kernel (callback identifier 1, period 5): every call overwrites
slot 0 yet increments `TaskNum`. -/
def addTaskIter : Nat → MicroOS_Task_t
  | 0 => MicroOS_Init
  | k + 1 => (MicroOS_AddTask (addTaskIter k) 0 1 0 5).1

/-- A used, running task slot that went to sleep for 40 ticks at tick
100 (so `LastRunTime` holds the sleep-start tick). -/
def sleepSlot3 : MicroOS_Task_Sub_t :=
  { IsUsed := true, IsRunning := true, IsSleeping := true
    SleepTicks := 40, Period := 5, LastRunTime := 100
    TaskFunction := 1, Userdata := 0 }

/-- A used, running, awake task slot with period 3, last run at tick 0. -/
def slotC2 : MicroOS_Task_Sub_t :=
  { IsUsed := true, IsRunning := true, IsSleeping := false
    SleepTicks := 0, Period := 3, LastRunTime := 0
    TaskFunction := 1, Userdata := 0 }

/-- Kernel with one task added at id 3 (callback identifier 1, period 5). -/
def taskTable3 : MicroOS_Task_t := (MicroOS_AddTask MicroOS_Init 3 1 0 5).1

/-- Kernel with one running task at id 2. -/
def taskRun2 : MicroOS_Task_t := (MicroOS_AddTask MicroOS_Init 2 1 0 5).1

/-- Kernel `taskRun2` after `MicroOS_SuspendTask(2)`: slot 2 is used but
not running. -/
def taskSusp2 : MicroOS_Task_t := (MicroOS_SuspendTask taskRun2 2).1

/-- Dispatching never changes a node's id. -/
theorem dispatchNode_id (p : MicroOS_Event_Sub_t) : (dispatchNode p).id = p.id := by
  unfold dispatchNode; split <;> rfl

/-- On a used, running node one dispatch step is exactly a decrement of
the pending count (truncated at zero). -/
theorem dispatchNode_record (p : MicroOS_Event_Sub_t) (hu : p.IsUsed = true)
    (hr : p.IsRunning = true) :
    dispatchNode p = { p with TriggerCount := p.TriggerCount - 1 } := by
  rcases p with ⟨i, r, u, c, f, d⟩
  cases c with
  | zero => simp [dispatchNode, eventEligible]
  | succ n =>
    simp only at hu hr
    simp [dispatchNode, eventEligible, hu, hr]

/-- Iterating the dispatch step `k` times on a used, running node
subtracts `k` from the pending count. -/
theorem dispatchNode_iterate (p : MicroOS_Event_Sub_t) (hu : p.IsUsed = true)
    (hr : p.IsRunning = true) (k : Nat) :
    dispatchNode^[k] p = { p with TriggerCount := p.TriggerCount - k } := by
  induction k with
  | zero => simp
  | succ n ih =>
    rw [Function.iterate_succ_apply', ih, dispatchNode_record]
    · simp [Nat.sub_sub]
    · exact hu
    · exact hr

/-- The node list produced by one dispatch traversal is the pointwise
dispatch step. -/
theorem dispatchTraverse_fst (l : List MicroOS_Event_Sub_t) :
    (dispatchTraverse l).1 = l.map dispatchNode := by
  induction l with
  | nil => simp [dispatchTraverse]
  | cons p rest ih =>
    by_cases he : eventEligible p = true <;>
      simp [dispatchTraverse, he, ih, dispatchNode]

/-- Number of handler invocations one dispatch traversal performs for a
given id: the number of eligible nodes carrying that id. -/
theorem dispatchTraverse_count (l : List MicroOS_Event_Sub_t) (i : Nat) :
    ((dispatchTraverse l).2).count i =
      ((l.filter (fun p => p.id = i)).filter eventEligible).length := by
  induction l with
  | nil => simp [dispatchTraverse]
  | cons p rest ih =>
    by_cases he : eventEligible p = true <;> by_cases hid : p.id = i <;>
      simp [dispatchTraverse, List.filter_cons, he, hid, ih, List.count_cons]

/-- Filtering by id commutes with the pointwise dispatch step. -/
theorem filter_map_dispatchNode (l : List MicroOS_Event_Sub_t) (i : Nat) :
    (l.map dispatchNode).filter (fun p => p.id = i) =
      (l.filter (fun p => p.id = i)).map dispatchNode := by
  induction l with
  | nil => simp
  | cons p rest ih =>
    by_cases hid : p.id = i <;>
      simp [List.filter_cons, dispatchNode_id, hid, ih]

/-- Active list after one full dispatch pass. -/
theorem dispatchAll_active (s : MicroOS_Event_t) :
    (MicroOS_DispatchAllEvents s).1.active_event =
      s.active_event.map dispatchNode := by
  simp [MicroOS_DispatchAllEvents, dispatchTraverse_fst]

/-- Invocation count of one full dispatch pass, for a given id. -/
theorem dispatchAll_count (s : MicroOS_Event_t) (i : Nat) :
    ((MicroOS_DispatchAllEvents s).2).count i =
      ((s.active_event.filter (fun p => p.id = i)).filter eventEligible).length := by
  simp [MicroOS_DispatchAllEvents, dispatchTraverse_count]

/-- Across `k` dispatch passes, the records carrying a given id evolve by
`k` iterations of the per-node dispatch step. -/
theorem dispatchNState_filter (s : MicroOS_Event_t) (i k : Nat) :
    (dispatchNState s k).active_event.filter (fun p => p.id = i) =
      (s.active_event.filter (fun p => p.id = i)).map (fun p => dispatchNode^[k] p) := by
  induction k with
  | zero => simp [dispatchNState]
  | succ n ih =>
    show (MicroOS_DispatchAllEvents (dispatchNState s n)).1.active_event.filter _ = _
    rw [dispatchAll_active, filter_map_dispatchNode, ih, List.map_map]
    apply List.map_congr_left
    intro p _
    exact (Function.iterate_succ_apply' dispatchNode n p).symm

/-- On a used, running, awake slot, one scheduler iteration is exactly
the period check: fire and stamp `LastRunTime` with the tick value read
before the callback, or do nothing. -/
theorem schedStep_awake (now : Nat) (t : MicroOS_Task_Sub_t)
    (hused : t.IsUsed = true) (hrun : t.IsRunning = true)
    (hsleep : t.IsSleeping = false) :
    schedStep now t =
      if sub32 now t.LastRunTime ≥ t.Period
      then ({ t with LastRunTime := now }, true) else (t, false) := by
  simp [schedStep, hused, hrun, hsleep]

/-- One scheduler pass acts on slot `i` as one scheduler iteration with
the tick value read at iteration `i`. -/
theorem schedulerPass_getD (tasks : List MicroOS_Task_Sub_t) (times : List Nat)
    (i : Nat) (hi : i < tasks.length) :
    (schedulerPass times tasks).1.getD i zeroTaskSlot =
      (schedStep (times.getD i 0) (tasks.getD i zeroTaskSlot)).1 ∧
    (schedulerPass times tasks).2.getD i false =
      (schedStep (times.getD i 0) (tasks.getD i zeroTaskSlot)).2 := by
  induction tasks generalizing times i with
  | nil => simp at hi
  | cons t rest ih =>
    cases i with
    | zero => cases times <;> simp [schedulerPass]
    | succ n =>
      have hn : n < rest.length := by simpa using hi
      cases times with
      | nil => simpa [schedulerPass] using ih [] n hn
      | cons a as => simpa [schedulerPass] using ih as n hn

/-- Indexing a mapped delay list. -/
theorem getD_map_delay (l : List MicroOS_OSdelay_Sub_t) (j : Nat)
    (hj : j < l.length) :
    (l.map osdelayTickNode).getD j zeroDelayNode =
      osdelayTickNode (l.getD j zeroDelayNode) := by
  induction l generalizing j with
  | nil => simp at hj
  | cons p rest ih =>
    cases j with
    | zero => simp
    | succ n => simpa using ih n (by simpa using hj)

/-- Field-level description of the per-node countdown: id kept, `ms`
decremented (truncated), expired flag sticky and raised exactly when the
old `ms` was 1. -/
theorem osdelayTickNode_spec (p : MicroOS_OSdelay_Sub_t) :
    (osdelayTickNode p).id = p.id ∧
    (osdelayTickNode p).ms = p.ms - 1 ∧
    (osdelayTickNode p).IsTimeout = (p.IsTimeout || decide (p.ms = 1)) := by
  rcases p with ⟨i, m, f⟩
  match m with
  | 0 => simp [osdelayTickNode]
  | 1 => simp [osdelayTickNode]
  | n + 2 => simp [osdelayTickNode]

/-- The refresh scan fails exactly on the lists holding no record with
the requested id. -/
theorem osdelayRefresh_eq_none (l : List MicroOS_OSdelay_Sub_t) (id Ticks : Nat)
    (h : ∀ p ∈ l, p.id ≠ id) : osdelayRefresh l id Ticks = none := by
  induction l with
  | nil => rfl
  | cons p rest ih =>
    have hp : p.id ≠ id := h p (by simp)
    simp [osdelayRefresh, hp, ih (fun q hq => h q (by simp [hq]))]

/-- When the id is present, unlinking succeeds and shortens the list by
exactly one node. -/
theorem osdelayUnlink_length (l : List MicroOS_OSdelay_Sub_t) (id : Nat)
    (h : id ∈ l.map (fun p => p.id)) :
    ∃ act, osdelayUnlink l id = some act ∧ act.length + 1 = l.length := by
  induction l with
  | nil => simp at h
  | cons p rest ih =>
    by_cases hp : p.id = id
    · exact ⟨rest, by simp [osdelayUnlink, hp], rfl⟩
    · have hmem : id ∈ rest.map (fun p => p.id) := by
        simp only [List.map_cons, List.mem_cons] at h
        rcases h with h1 | h1
        · exact absurd h1.symm hp
        · exact h1
      obtain ⟨act, ha, hl⟩ := ih hmem
      refine ⟨p :: act, by simp [osdelayUnlink, hp, ha], ?_⟩
      simp [← hl]

/-- The register scan updates the first node carrying the id, in place,
when the prefix is id-free. -/
theorem eventUpdateFirst_append (l1 l2 : List MicroOS_Event_Sub_t)
    (p : MicroOS_Event_Sub_t) (id f d : Nat) (hp : p.id = id)
    (hl1 : ∀ q ∈ l1, q.id ≠ id) :
    eventUpdateFirst (l1 ++ p :: l2) id f d =
      some (l1 ++ { p with EventFunction := f, IsRunning := true, Userdata := d
                           TriggerCount := 0, IsUsed := true } :: l2) := by
  induction l1 with
  | nil => simp [eventUpdateFirst, hp]
  | cons q rest ih =>
    have hq : q.id ≠ id := hl1 q (by simp)
    simp [eventUpdateFirst, hq, ih (fun r hr => hl1 r (by simp [hr]))]

/-- The register scan fails exactly on lists holding no record with the
requested id. -/
theorem eventUpdateFirst_eq_none (l : List MicroOS_Event_Sub_t) (id f d : Nat)
    (h : ∀ q ∈ l, q.id ≠ id) : eventUpdateFirst l id f d = none := by
  induction l with
  | nil => rfl
  | cons q rest ih =>
    have hq : q.id ≠ id := h q (by simp)
    simp [eventUpdateFirst, hq, ih (fun r hr => h r (by simp [hr]))]

/-- Reading back an in-range write to the task array. -/
theorem getD_set_self_task (l : List MicroOS_Task_Sub_t) (i : Nat)
    (a : MicroOS_Task_Sub_t) (h : i < l.length) :
    (l.set i a).getD i zeroTaskSlot = a := by
  induction l generalizing i with
  | nil => simp at h
  | cons p rest ih =>
    cases i with
    | zero => simp
    | succ n => simpa using ih n (by simpa using h)

/-- Claim C1, counterexample: on a freshly initialised pool,
`MicroOS_OSdelay(1, 0)` does not return the invalid-parameter status (it
returns `MICROOS_OK`) and it does mutate the delay pool state, so the
claim fails on the code at this input. -/
theorem claim_C1_counterexample :
    (MicroOS_OSdelay MicroOS_OSdelay_Init 1 0).2 ≠ MICROOS_INVALID_PARAM ∧
    (MicroOS_OSdelay MicroOS_OSdelay_Init 1 0).1 ≠ MicroOS_OSdelay_Init := by
  decide

/-- Claim C1, amended: `MicroOS_OSdelay` performs no `ticks == 0` check;
a call with `ticks = 0` is handled like any other add/refresh — it never
returns `MICROOS_INVALID_PARAM`, it returns `MICROOS_OK` whenever the
free list is nonempty, and for a fresh id it allocates a new active
record (mutating the pool) just as for a nonzero tick count. -/
theorem claim_C1 (s : MicroOS_OSdelay_t) (id : Nat) :
    (MicroOS_OSdelay s id 0).2 ≠ MICROOS_INVALID_PARAM ∧
    (s.free_delay ≠ [] → (MicroOS_OSdelay s id 0).2 = MICROOS_OK) ∧
    (s.free_delay ≠ [] → (∀ p ∈ s.active_delay, p.id ≠ id) →
      (MicroOS_OSdelay s id 0).1.active_delay.length
        = s.active_delay.length + 1) := by
  refine ⟨?_, ?_, ?_⟩
  · rcases h : osdelayRefresh s.active_delay id 0 with _ | act
    · rcases hf : s.free_delay with _ | ⟨n, rest⟩ <;>
        simp [MicroOS_OSdelay, h, hf]
    · simp [MicroOS_OSdelay, h]
  · intro hfree
    rcases h : osdelayRefresh s.active_delay id 0 with _ | act
    · rcases hf : s.free_delay with _ | ⟨n, rest⟩
      · exact absurd hf hfree
      · simp [MicroOS_OSdelay, h, hf]
    · simp [MicroOS_OSdelay, h]
  · intro hfree hid
    have h := osdelayRefresh_eq_none s.active_delay id 0 hid
    rcases hf : s.free_delay with _ | ⟨n, rest⟩
    · exact absurd hf hfree
    · simp [MicroOS_OSdelay, h, hf]

/-- Claim C1, witness for the amended statement: a fresh pool has a
nonempty free list and no active record for id 3, so the zero-tick call
returns `MICROOS_OK` and grows the active list. -/
theorem claim_C1_witness :
    (MicroOS_OSdelay MicroOS_OSdelay_Init 3 0).2 = MICROOS_OK ∧
    (MicroOS_OSdelay MicroOS_OSdelay_Init 3 0).1.active_delay.length
      = MicroOS_OSdelay_Init.active_delay.length + 1 := by
  have h := claim_C1 MicroOS_OSdelay_Init 3
  exact ⟨h.2.1 (by decide), h.2.2 (by decide) (by decide)⟩

set_option maxRecDepth 100000 in
/-- Claim C4: one tick leaves the active list length unchanged (no
auto-removal) and, on every active record, keeps the id, decrements
`remaining_ticks` (truncated at zero) and raises the sticky expired flag
exactly when the count reaches zero; concretely, after `Add(5, 100)` a
query is `false` after 99 ticks and `true` after the 100th, and after
`Remove(5)` a re-`Add(5, 50)` succeeds, building its record from the
recycled free-list head. -/
theorem claim_C4 (s : MicroOS_OSdelay_t) (j : Nat)
    (hj : j < s.active_delay.length) :
    ((MicroOS_OSdelay_Tick s).active_delay.length = s.active_delay.length) ∧
    (((MicroOS_OSdelay_Tick s).active_delay.getD j zeroDelayNode).id
      = (s.active_delay.getD j zeroDelayNode).id) ∧
    (((MicroOS_OSdelay_Tick s).active_delay.getD j zeroDelayNode).ms
      = (s.active_delay.getD j zeroDelayNode).ms - 1) ∧
    (((MicroOS_OSdelay_Tick s).active_delay.getD j zeroDelayNode).IsTimeout
      = ((s.active_delay.getD j zeroDelayNode).IsTimeout
          || decide ((s.active_delay.getD j zeroDelayNode).ms = 1))) ∧
    (MicroOS_OSdelayDone (MicroOS_OSdelay_Tick^[99] delayAfterAdd5) 5 = false) ∧
    (MicroOS_OSdelayDone (MicroOS_OSdelay_Tick^[100] delayAfterAdd5) 5 = true) ∧
    ((MicroOS_OSdelay delayAfterRemove5 5 50).2 = MICROOS_OK) ∧
    ((MicroOS_OSdelay delayAfterRemove5 5 50).1.active_delay
      = [{ id := 5, ms := 50, IsTimeout := false }]) ∧
    (delayAfterRemove5.free_delay.length = OS_DELAY_POOLSIZE) := by
  have hmap : (MicroOS_OSdelay_Tick s).active_delay.getD j zeroDelayNode
      = osdelayTickNode (s.active_delay.getD j zeroDelayNode) :=
    getD_map_delay s.active_delay j hj
  obtain ⟨h1, h2, h3⟩ := osdelayTickNode_spec (s.active_delay.getD j zeroDelayNode)
  refine ⟨?_, ?_, ?_, ?_, by decide, by decide, by decide, by decide, by decide⟩
  · simp [MicroOS_OSdelay_Tick]
  · rw [hmap]; exact h1
  · rw [hmap]; exact h2
  · rw [hmap]; exact h3

/-- Claim C4, witness: the general per-record part instantiated on the
concrete pool holding the single record `Add(5, 100)`, at index 0. -/
theorem claim_C4_witness :
    ((MicroOS_OSdelay_Tick delayAfterAdd5).active_delay.length
      = delayAfterAdd5.active_delay.length) ∧
    (((MicroOS_OSdelay_Tick delayAfterAdd5).active_delay.getD 0 zeroDelayNode).ms
      = (delayAfterAdd5.active_delay.getD 0 zeroDelayNode).ms - 1) := by
  have h := claim_C4 delayAfterAdd5 0 (by decide)
  exact ⟨h.1, h.2.2.1⟩

/-- Claim C5: with an empty free list, adding a fresh id fails with
`MICROOS_BUSY` and leaves the whole pool state (in particular the active
list and every active record) unchanged; removing one active id moves
exactly one node back to the free list, after which any add succeeds. -/
theorem claim_C5 (s : MicroOS_OSdelay_t) (id j Ticks : Nat)
    (hfree : s.free_delay = [])
    (hnew : ∀ p ∈ s.active_delay, p.id ≠ id)
    (hj : j ∈ s.active_delay.map (fun p => p.id)) :
    MicroOS_OSdelay s id Ticks = (s, MICROOS_BUSY) ∧
    (MicroOS_OSdelay_Remove s j).free_delay.length
      = s.free_delay.length + 1 ∧
    (MicroOS_OSdelay_Remove s j).active_delay.length + 1
      = s.active_delay.length ∧
    ∀ id2 Ticks2,
      (MicroOS_OSdelay (MicroOS_OSdelay_Remove s j) id2 Ticks2).2
        = MICROOS_OK := by
  have hnone := osdelayRefresh_eq_none s.active_delay id Ticks hnew
  obtain ⟨act, ha, hl⟩ := osdelayUnlink_length s.active_delay j hj
  refine ⟨?_, ?_, ?_, ?_⟩
  · simp [MicroOS_OSdelay, hnone, hfree]
  · simp [MicroOS_OSdelay_Remove, ha]
  · simp [MicroOS_OSdelay_Remove, ha, hl]
  · intro id2 Ticks2
    have hrem : MicroOS_OSdelay_Remove s j
        = { free_delay := zeroDelayNode :: s.free_delay, active_delay := act } := by
      simp [MicroOS_OSdelay_Remove, ha]
    rw [hrem]
    rcases h2 : osdelayRefresh act id2 Ticks2 with _ | act2 <;>
      simp [MicroOS_OSdelay, h2]

/-- Claim C5, witness: the pool filled with ids 0–9 has an empty free
list; adding id 10 is busy, removing id 3 frees one node, and the next
add succeeds. -/
theorem claim_C5_witness :
    MicroOS_OSdelay (delayFillIter 10) 10 7 = (delayFillIter 10, MICROOS_BUSY) ∧
    (MicroOS_OSdelay_Remove (delayFillIter 10) 3).free_delay.length
      = (delayFillIter 10).free_delay.length + 1 ∧
    (MicroOS_OSdelay (MicroOS_OSdelay_Remove (delayFillIter 10) 3) 10 7).2
      = MICROOS_OK := by
  have h := claim_C5 (delayFillIter 10) 10 3 7 (by decide) (by decide) (by decide)
  exact ⟨h.1, h.2.1, h.2.2.2 10 7⟩

/-- Claim C3: when the active list holds exactly one record for id `i`,
used and running with pending count `c` and no further triggers arrive,
each of the next `c` dispatch passes invokes that handler exactly once,
each pass leaves the record in place with its count decremented by
exactly one, and pass `c` performs no invocation for `i`; concretely,
three consecutive `Trigger(2)` calls leave a pending count of 3 and the
next three passes each dispatch id 2 once, the fourth not at all. -/
theorem claim_C3 (s : MicroOS_Event_t) (i c : Nat) (p0 : MicroOS_Event_Sub_t)
    (hfilter : s.active_event.filter (fun p => p.id = i) = [p0])
    (hused : p0.IsUsed = true) (hrun : p0.IsRunning = true)
    (hcount : p0.TriggerCount = c) :
    (∀ k, k < c → (dispatchPassInv s k).count i = 1) ∧
    (∀ k, (dispatchNState s k).active_event.filter (fun p => p.id = i)
      = [{ p0 with TriggerCount := c - k }]) ∧
    (dispatchPassInv s c).count i = 0 ∧
    ((eventTrig3.active_event.filter (fun p => p.id = 2)).map
      (fun p => p.TriggerCount) = [3]) ∧
    (dispatchPassInv eventTrig3 0 = [2]) ∧
    (dispatchPassInv eventTrig3 1 = [2]) ∧
    (dispatchPassInv eventTrig3 2 = [2]) ∧
    (dispatchPassInv eventTrig3 3 = []) := by
  subst hcount
  have hstate : ∀ k,
      (dispatchNState s k).active_event.filter (fun p => p.id = i)
        = [{ p0 with TriggerCount := p0.TriggerCount - k }] := by
    intro k
    rw [dispatchNState_filter, hfilter]
    simp [dispatchNode_iterate p0 hused hrun k]
  have hcnt : ∀ k, (dispatchPassInv s k).count i
      = if p0.TriggerCount - k > 0 then 1 else 0 := by
    intro k
    show ((MicroOS_DispatchAllEvents (dispatchNState s k)).2).count i = _
    rw [dispatchAll_count, hstate k]
    by_cases h : p0.TriggerCount - k > 0
    · simp [List.filter_cons, eventEligible, hused, hrun, h]
    · simp [List.filter_cons, eventEligible, hused, hrun, h]
  refine ⟨?_, hstate, ?_, by decide, by decide, by decide, by decide, by decide⟩
  · intro k hk
    rw [hcnt k]
    simp [Nat.sub_pos_of_lt hk]
  · rw [hcnt]
    simp

/-- Claim C3, witness: the pool after `Register(2, 7, 3)` and three
consecutive `Trigger(2)` calls, dispatched over four passes. -/
theorem claim_C3_witness :
    (dispatchPassInv eventTrig3 0).count 2 = 1 ∧
    (dispatchPassInv eventTrig3 1).count 2 = 1 ∧
    (dispatchPassInv eventTrig3 2).count 2 = 1 ∧
    (dispatchPassInv eventTrig3 3).count 2 = 0 := by
  have h := claim_C3 eventTrig3 2 3 ⟨2, true, true, 3, 7, 3⟩
    (by decide) (by decide) (by decide) (by decide)
  exact ⟨h.1 0 (by decide), h.1 1 (by decide), h.1 2 (by decide), h.2.2.1⟩

/-- Claim C6: re-registering an id that already has an active record
updates that record in place — handler, user data, running flag (set) and
pending count (cleared to zero) — returning `MICROOS_OK` without touching
the free list or `EventNum`, even when the free list is empty; registering
a further distinct id with the free list empty returns `MICROOS_BUSY` and
leaves the pool unchanged. -/
theorem claim_C6 (s : MicroOS_Event_t) (l1 l2 : List MicroOS_Event_Sub_t)
    (p : MicroOS_Event_Sub_t) (id f d id2 f2 d2 : Nat)
    (hf : f ≠ 0) (hf2 : f2 ≠ 0)
    (hfree : s.free_event = [])
    (hsplit : s.active_event = l1 ++ p :: l2)
    (hp : p.id = id)
    (hl1 : ∀ q ∈ l1, q.id ≠ id)
    (hid2 : ∀ q ∈ s.active_event, q.id ≠ id2) :
    MicroOS_RegisterEvent s id f d =
      ({ s with active_event :=
          l1 ++ { p with EventFunction := f, IsRunning := true, Userdata := d
                         TriggerCount := 0, IsUsed := true } :: l2 },
        MICROOS_OK) ∧
    MicroOS_RegisterEvent s id2 f2 d2 = (s, MICROOS_BUSY) := by
  constructor
  · have h := eventUpdateFirst_append l1 l2 p id f d hp hl1
    rw [← hsplit] at h
    simp [MicroOS_RegisterEvent, hf, h]
  · have h := eventUpdateFirst_eq_none s.active_event id2 f2 d2 hid2
    simp [MicroOS_RegisterEvent, hf2, h, hfree]

/-- Claim C6, witness: the event pool filled with ids 0–9 (empty free
list); re-registering id 9 succeeds without allocating, registering the
fresh id 10 is busy. -/
theorem claim_C6_witness :
    (MicroOS_RegisterEvent (eventFillIter 10) 9 5 4).2 = MICROOS_OK ∧
    (MicroOS_RegisterEvent (eventFillIter 10) 9 5 4).1.free_event
      = (eventFillIter 10).free_event ∧
    (MicroOS_RegisterEvent (eventFillIter 10) 9 5 4).1.EventNum
      = (eventFillIter 10).EventNum ∧
    MicroOS_RegisterEvent (eventFillIter 10) 10 5 4
      = (eventFillIter 10, MICROOS_BUSY) := by
  have h := claim_C6 (eventFillIter 10) [] ((eventFillIter 10).active_event.tail)
    ⟨9, true, true, 0, 1, 0⟩ 9 5 4 10 5 4 (by decide) (by decide) (by decide)
    (by decide) (by decide) (by decide) (by decide)
  exact ⟨by simp [h.1], by simp [h.1], by simp [h.1], h.2⟩

/-- Claim C2: in a scheduler pass, a used, running, non-sleeping slot's
callback runs exactly when the wraparound-safe 32-bit difference between
the tick value read at that iteration and `last_run_tick` reaches the
period, and on invocation `last_run_tick` is set to exactly that
previously read tick value (the model fixes the read before the callback,
as the C local `currentTime` does, so no post-callback re-read exists). -/
theorem claim_C2 (times : List Nat) (tasks : List MicroOS_Task_Sub_t) (i : Nat)
    (hi : i < tasks.length)
    (hused : (tasks.getD i zeroTaskSlot).IsUsed = true)
    (hrun : (tasks.getD i zeroTaskSlot).IsRunning = true)
    (hsleep : (tasks.getD i zeroTaskSlot).IsSleeping = false) :
    ((schedulerPass times tasks).2.getD i false = true ↔
      sub32 (times.getD i 0) (tasks.getD i zeroTaskSlot).LastRunTime
        ≥ (tasks.getD i zeroTaskSlot).Period) ∧
    ((schedulerPass times tasks).2.getD i false = true →
      (schedulerPass times tasks).1.getD i zeroTaskSlot
        = { tasks.getD i zeroTaskSlot with LastRunTime := times.getD i 0 }) := by
  obtain ⟨h1, h2⟩ := schedulerPass_getD tasks times i hi
  constructor
  · rw [h2, schedStep_awake _ _ hused hrun hsleep]
    split <;> simp_all
  · rw [h1, h2, schedStep_awake _ _ hused hrun hsleep]
    split <;> simp_all

/-- Claim C2, witness: a single awake slot with period 3 and last run 0,
evaluated at tick 5: it fires and stamps `LastRunTime := 5`. -/
theorem claim_C2_witness :
    (schedulerPass [5] [slotC2]).2.getD 0 false = true ∧
    (schedulerPass [5] [slotC2]).1.getD 0 zeroTaskSlot
      = { slotC2 with LastRunTime := 5 } := by
  have h := claim_C2 [5] [slotC2] 0 (by decide) (by decide) (by decide) (by decide)
  have hf : (schedulerPass [5] [slotC2]).2.getD 0 false = true :=
    h.1.mpr (by decide)
  exact ⟨hf, h.2 hf⟩

/-- Claim C7: `SleepTask` rejects `ticks = 0` as invalid-parameter and
otherwise marks the used slot sleeping, storing the duration and the
sleep-start tick; the scheduler skips the sleeping slot while the elapsed
32-bit tick difference is below the duration, and once it reaches the
duration the slot is woken and evaluated for its period within the same
pass. -/
theorem claim_C7 (s : MicroOS_Task_t) (id Ticks now : Nat)
    (t : MicroOS_Task_Sub_t) :
    (id < MICROOS_TASK_SIZE →
      MicroOS_SleepTask s id 0 = (s, MICROOS_INVALID_PARAM)) ∧
    (id < MICROOS_TASK_SIZE → 0 < Ticks →
      s.Tasks.length = MICROOS_TASK_SIZE →
      (s.Tasks.getD id zeroTaskSlot).IsUsed = true →
      (MicroOS_SleepTask s id Ticks).2 = MICROOS_OK ∧
      (MicroOS_SleepTask s id Ticks).1.TickCount = s.TickCount ∧
      (MicroOS_SleepTask s id Ticks).1.Tasks.getD id zeroTaskSlot
        = { s.Tasks.getD id zeroTaskSlot with IsSleeping := true
                                              SleepTicks := Ticks
                                              LastRunTime := s.TickCount }) ∧
    (t.IsUsed = true → t.IsRunning = true → t.IsSleeping = true →
      sub32 now t.LastRunTime < t.SleepTicks →
      schedStep now t = (t, false)) ∧
    (t.IsUsed = true → t.IsRunning = true → t.IsSleeping = true →
      sub32 now t.LastRunTime ≥ t.SleepTicks →
      schedStep now t =
        if sub32 now t.LastRunTime ≥ t.Period then
          ({ t with IsSleeping := false, SleepTicks := 0
                    LastRunTime := now }, true)
        else ({ t with IsSleeping := false, SleepTicks := 0 }, false)) := by
  refine ⟨?_, ?_, ?_, ?_⟩
  · intro hid
    have h1 : ¬ id ≥ MICROOS_TASK_SIZE := by omega
    simp [MicroOS_SleepTask, h1]
  · intro hid hT hlen hu
    have h1 : ¬ id ≥ MICROOS_TASK_SIZE := by omega
    have h2 : ¬ Ticks = 0 := by omega
    have hid2 : id < s.Tasks.length := by omega
    have hu2 : ¬ (s.Tasks.getD id zeroTaskSlot).IsUsed = false := by
      rw [hu]
      decide
    unfold MicroOS_SleepTask
    rw [if_neg h1, if_neg h2, if_neg hu2]
    exact ⟨rfl, rfl, getD_set_self_task _ _ _ hid2⟩
  · intro hu hr hs hlt
    have hnot : ¬ sub32 now t.LastRunTime ≥ t.SleepTicks := Nat.not_le.mpr hlt
    simp [schedStep, hu, hr, hs, hnot]
  · intro hu hr hs hge
    simp [schedStep, hu, hr, hs, hge]

/-- Claim C7, witness: slot 3 put to sleep for 40 ticks at tick 100; it
is skipped at tick 139 (39 elapsed) and at tick 140 (40 elapsed) it is
woken and fires in the same pass; `SleepTask(3, 0)` is rejected. -/
theorem claim_C7_witness :
    MicroOS_SleepTask taskTable3 3 0 = (taskTable3, MICROOS_INVALID_PARAM) ∧
    (MicroOS_SleepTask taskTable3 3 40).2 = MICROOS_OK ∧
    ((MicroOS_SleepTask taskTable3 3 40).1.Tasks.getD 3 zeroTaskSlot).IsSleeping
      = true ∧
    schedStep 139 sleepSlot3 = (sleepSlot3, false) ∧
    (schedStep 140 sleepSlot3).1.IsSleeping = false ∧
    (schedStep 140 sleepSlot3).2 = true := by
  have h := claim_C7 taskTable3 3 40 139 sleepSlot3
  have h140 := claim_C7 taskTable3 3 40 140 sleepSlot3
  have e2 := h.2.1 (by decide) (by decide) (by decide) (by decide)
  have e4 := h140.2.2.2 (by decide) (by decide) (by decide) (by decide)
  refine ⟨h.1 (by decide), e2.1, ?_,
    h.2.2.1 (by decide) (by decide) (by decide) (by decide), ?_, ?_⟩
  · rw [e2.2.2]
  · rw [e4]; decide
  · rw [e4]; decide

/-- Claim C8: for a valid id and non-null callback, `AddTask` followed
immediately by `DeleteTask` returns `MICROOS_OK` and leaves the slot
entirely zeroed, in particular unused. -/
theorem claim_C8 (s : MicroOS_Task_t) (id fn ud per : Nat)
    (hid : id < MICROOS_TASK_SIZE)
    (hlen : s.Tasks.length = MICROOS_TASK_SIZE) (hfn : fn ≠ 0) :
    ((MicroOS_DeleteTask (MicroOS_AddTask s id fn ud per).1 id).2
      = MICROOS_OK) ∧
    ((MicroOS_DeleteTask (MicroOS_AddTask s id fn ud per).1 id).1.Tasks.getD id
      zeroTaskSlot = zeroTaskSlot) ∧
    (((MicroOS_DeleteTask (MicroOS_AddTask s id fn ud per).1 id).1.Tasks.getD id
      zeroTaskSlot).IsUsed = false) := by
  have hnid : ¬ id ≥ MICROOS_TASK_SIZE := by omega
  have key : ∀ s2 : MicroOS_Task_t, s2.Tasks.length = MICROOS_TASK_SIZE →
      (MicroOS_DeleteTask s2 id).2 = MICROOS_OK ∧
      (MicroOS_DeleteTask s2 id).1.Tasks.getD id zeroTaskSlot = zeroTaskSlot := by
    intro s2 hl2
    have hid2 : id < s2.Tasks.length := by omega
    unfold MicroOS_DeleteTask
    rw [if_neg hnid]
    by_cases hr : (s2.Tasks.getD id zeroTaskSlot).IsRunning = true
    · rw [if_pos hr]
      exact ⟨rfl, getD_set_self_task _ _ _ hid2⟩
    · rw [if_neg hr]
      exact ⟨rfl, getD_set_self_task _ _ _ hid2⟩
  have hlen2 : (MicroOS_AddTask s id fn ud per).1.Tasks.length
      = MICROOS_TASK_SIZE := by
    by_cases hnum : s.TaskNum > MICROOS_TASK_SIZE <;>
      simp [MicroOS_AddTask, hnid, hfn, hnum, List.length_set, hlen]
  obtain ⟨k1, k2⟩ := key _ hlen2
  exact ⟨k1, k2, by rw [k2]; rfl⟩

/-- Claim C8, witness: on a fresh kernel, add then delete at id 4. -/
theorem claim_C8_witness :
    ((MicroOS_DeleteTask (MicroOS_AddTask MicroOS_Init 4 2 0 9).1 4).1.Tasks.getD
      4 zeroTaskSlot = zeroTaskSlot) ∧
    (((MicroOS_DeleteTask (MicroOS_AddTask MicroOS_Init 4 2 0 9).1 4).1.Tasks.getD
      4 zeroTaskSlot).IsUsed = false) := by
  have h := claim_C8 MicroOS_Init 4 2 0 9 (by decide) (by decide) (by decide)
  exact ⟨h.2.1, h.2.2⟩

/-- Claim C9: `DeleteTask` on a valid id always succeeds and zeroes the
slot; it decrements `TaskNum` (as the C `uint8_t` decrement, i.e. minus
one mod 256) exactly when the slot's running flag was set at delete time,
and leaves `TaskNum` unchanged when the slot was not running. -/
theorem claim_C9 (s : MicroOS_Task_t) (id : Nat)
    (hid : id < MICROOS_TASK_SIZE)
    (hlen : s.Tasks.length = MICROOS_TASK_SIZE) :
    ((MicroOS_DeleteTask s id).2 = MICROOS_OK) ∧
    ((s.Tasks.getD id zeroTaskSlot).IsRunning = true →
      (MicroOS_DeleteTask s id).1.TaskNum = (s.TaskNum + 255) % 256) ∧
    ((s.Tasks.getD id zeroTaskSlot).IsRunning = false →
      (MicroOS_DeleteTask s id).1.TaskNum = s.TaskNum) ∧
    ((MicroOS_DeleteTask s id).1.Tasks.getD id zeroTaskSlot = zeroTaskSlot) := by
  have hnid : ¬ id ≥ MICROOS_TASK_SIZE := by omega
  have hid2 : id < s.Tasks.length := by omega
  unfold MicroOS_DeleteTask
  rw [if_neg hnid]
  by_cases hr : (s.Tasks.getD id zeroTaskSlot).IsRunning = true
  · rw [if_pos hr]
    refine ⟨rfl, fun _ => rfl, fun hfalse => ?_, getD_set_self_task _ _ _ hid2⟩
    rw [hr] at hfalse
    cases hfalse
  · rw [if_neg hr]
    have hr2 : (s.Tasks.getD id zeroTaskSlot).IsRunning = false := by
      simpa using hr
    refine ⟨rfl, fun htrue => ?_, fun _ => rfl, getD_set_self_task _ _ _ hid2⟩
    rw [hr2] at htrue
    cases htrue

/-- Claim C9, witness: deleting the running task 2 decrements `TaskNum`;
deleting it after a suspend leaves `TaskNum` unchanged while still
zeroing the slot. -/
theorem claim_C9_witness :
    (MicroOS_DeleteTask taskRun2 2).1.TaskNum
      = (taskRun2.TaskNum + 255) % 256 ∧
    (MicroOS_DeleteTask taskSusp2 2).1.TaskNum = taskSusp2.TaskNum ∧
    (MicroOS_DeleteTask taskSusp2 2).1.Tasks.getD 2 zeroTaskSlot
      = zeroTaskSlot := by
  have h1 := claim_C9 taskRun2 2 (by decide) (by decide)
  have h2 := claim_C9 taskSusp2 2 (by decide) (by decide)
  exact ⟨h1.2.1 (by decide), h2.2.2.1 (by decide), h2.2.2.2⟩

/-- Claim C10: every successful `AddTask` bumps `TaskNum` (mod 256) even
when it merely overwrites an already used slot, so `TaskNum` can exceed
the number of used slots; concretely, eleven repeated adds on id 0 all
succeed and drive `TaskNum` to 11 with a single used slot, after which an
add on the unused id 1 with a non-null callback fails with
`MICROOS_ERROR` although nine slots are free. -/
theorem claim_C10 (s : MicroOS_Task_t) (id fn ud per : Nat)
    (h : (MicroOS_AddTask s id fn ud per).2 = MICROOS_OK) :
    ((MicroOS_AddTask s id fn ud per).1.TaskNum = (s.TaskNum + 1) % 256) ∧
    (∀ k, k < 11 → (MicroOS_AddTask (addTaskIter k) 0 1 0 5).2 = MICROOS_OK) ∧
    ((addTaskIter 11).TaskNum = 11) ∧
    ((addTaskIter 11).Tasks.countP (fun t => t.IsUsed) = 1) ∧
    ((MicroOS_AddTask (addTaskIter 11) 1 1 0 5).2 = MICROOS_ERROR) ∧
    (((addTaskIter 11).Tasks.getD 1 zeroTaskSlot).IsUsed = false) := by
  refine ⟨?_, by decide, by decide, by decide, by decide, by decide⟩
  unfold MicroOS_AddTask at h ⊢
  split_ifs at h ⊢
  simp_all

/-- Claim C10, witness: the first add on a fresh kernel takes `TaskNum`
from 0 to 1; the chain of eleven adds reaches `TaskNum = 11` and the
twelfth (on the unused id 1) errors out. -/
theorem claim_C10_witness :
    (MicroOS_AddTask MicroOS_Init 0 1 0 5).1.TaskNum
      = (MicroOS_Init.TaskNum + 1) % 256 ∧
    (addTaskIter 11).TaskNum = 11 ∧
    (MicroOS_AddTask (addTaskIter 11) 1 1 0 5).2 = MICROOS_ERROR := by
  have h := claim_C10 MicroOS_Init 0 1 0 5 (by decide)
  exact ⟨h.1, h.2.2.1, h.2.2.2.2.1⟩

end MicroOS
